import Mathlib

/-!
Verification development for the `ds-caselaw-aws-lambda` ingester
(`ds-caselaw-ingester/lambda_function.py`).

The Python source is shallowly embedded: dictionaries decoded from the wire
messages become structures with `Option`-valued fields (a `none` field models
an absent key), the tar archive becomes a list of named members with string
contents, and every external collaborator (MarkLogic client, S3, SQS, GOV.UK
Notify, the system clock and the UUID generator) is abstracted into an
environment record whose fields supply the answers those collaborators would
give.  Side effects are reified as an explicit list of `Effect` values and
Python exceptions become an `Err` sum returned through `Except`.
-/

namespace Ingester

/-- Python exceptions that can escape the pipeline.  The first seven mirror
the `ReportableException` subclasses declared at the top of
`lambda_function.py`; `keyError`, `indexError` and `parseError` model the
built-in Python exceptions (`KeyError`, `IndexError`, `xml.etree.ElementTree.ParseError`)
that the source can raise without catching. -/
inductive Err
  | s3HTTPError
  | fileNotFound
  | docxFilenameNotFound
  | maximumRetriesExceeded
  | invalidXML
  | invalidMessage
  | documentInsertion
  | keyError
  | indexError
  | parseError
deriving DecidableEq

/-- True exactly for the errors that correspond to one of the
`ReportableException` subclasses defined in the source file, i.e. the
pipeline's own error taxonomy. -/
def isReportable : Err → Bool
  | .s3HTTPError | .fileNotFound | .docxFilenameNotFound | .maximumRetriesExceeded
  | .invalidXML | .invalidMessage | .documentInsertion => true
  | .keyError | .indexError | .parseError => false

/-- One member of the consignment tar archive: its path inside the archive
and its contents (read as text). -/
structure TarMember where
  name : String
  content : String
deriving DecidableEq

/-- The `parameters.TDR` block of the metadata file.  The handler reads these
five keys directly, so they are modelled as required fields. -/
structure TDRMeta where
  sourceOrganization : String
  contactName : String
  contactEmail : String
  internalSenderIdentifier : String
  consignmentCompletedDatetime : String
deriving DecidableEq

/-- The parts of the decoded `metadata.json` mapping that the pipeline reads.
`parserUri` models `metadata["parameters"]["PARSER"].get("uri", "")` (so an
absent key is the empty string, exactly as in the source); `xmlFileName` and
`images` are read with direct indexing in the source and are therefore
required; the docx filename is read inside a `try/except KeyError` and is
`Option`-valued. -/
structure Metadata where
  parserUri : String
  xmlFileName : String
  docxFilename : Option String
  images : List String
  tdr : TDRMeta
deriving DecidableEq

/-- The `parameters` block of a current-generation (v2) message. -/
structure MsgParams where
  reference : Option String
  s3Bucket : Option String
  s3Key : Option String
deriving DecidableEq

/-- A decoded inbound notification body.  Each field is one of the wire keys
the source reads; `none` models an absent key.  `parameters` present means
current-generation (v2), absent means legacy (v1), mirroring `is_v1`. -/
structure Message where
  parameters : Option MsgParams
  consignmentReference : Option String
  s3FolderUrl : Option String
  consignmentType : Option String
  numberOfRetries : Option Int
deriving DecidableEq

/-- `is_v1`: a message is legacy iff it has no `parameters` key. -/
def is_v1 (m : Message) : Bool :=
  m.parameters.isNone

/-- Whether the first character list is a prefix of the second. -/
def isPrefixChars : List Char → List Char → Bool
  | [], _ => true
  | _ :: _, [] => false
  | a :: as, b :: bs => a == b && isPrefixChars as bs

/-- Whether `pat` occurs as a contiguous sublist of the second argument. -/
def subOccurs (pat : List Char) : List Char → Bool
  | [] => pat.isEmpty
  | c :: rest => isPrefixChars pat (c :: rest) || subOccurs pat rest

/-- Python's substring test `pat in s`. -/
def strContains (s pat : String) : Bool :=
  subOccurs pat.data s.data

/-- The final path segment of a URL, modelling
`re.findall("([^/]+$)", location)[0]`: `none` when the regex has no match
(empty string or a string ending in `/`), in which case the source raises an
uncaught `IndexError`. -/
def lastSegment (s : String) : Option String :=
  let seg := (s.data.reverse.takeWhile (fun c => c != '/')).reverse
  if seg.isEmpty then none else some (String.mk seg)

/-- The characters before the first occurrence of `pat`, or `none` when
`pat` does not occur. -/
def beforeFirstAux (pat : List Char) : List Char → Option (List Char)
  | [] => if pat.isEmpty then some [] else none
  | c :: rest =>
    if isPrefixChars pat (c :: rest) then some []
    else
      match beforeFirstAux pat rest with
      | some l => some (c :: l)
      | none => none

/-- Python's `s.partition(pat)[0]`: everything before the first occurrence of
`pat`, or all of `s` when `pat` does not occur. -/
def partitionBefore (s pat : String) : String :=
  match beforeFirstAux pat.data s.data with
  | some l => String.mk l
  | none => s

/-- Python's `os.path.basename`: the text after the last `/`. -/
def basename (s : String) : String :=
  String.mk ((s.data.reverse.takeWhile (fun c => c != '/')).reverse)

/-- Fuelled worker for `replaceAll`; one unit of fuel is spent per input
character, which suffices because every step consumes at least one. -/
def replaceFuel (pat rep : List Char) : Nat → List Char → List Char
  | 0, s => s
  | _ + 1, [] => []
  | fuel + 1, c :: rest =>
    if isPrefixChars pat (c :: rest) then
      rep ++ replaceFuel pat rep fuel (List.drop (pat.length - 1) rest)
    else c :: replaceFuel pat rep fuel rest

/-- Python's `s.replace(pat, rep)`: every occurrence of a non-empty `pat`
replaced by `rep`, scanning left to right. -/
def replaceAll (s pat rep : String) : String :=
  if pat.data.isEmpty then s
  else String.mk (replaceFuel pat.data rep.data s.data.length s.data)

/-- `xml.sax.saxutils.escape`: replace `&`, then `<`, then `>` by their
entity references (the ampersand must be replaced first, as in CPython). -/
def escape (s : String) : String :=
  replaceAll (replaceAll (replaceAll s "&" "&amp;") "<" "&lt;") ">" "&gt;"

/-- `get_consignment_reference_v1`: use the `consignment-reference` field
when present and non-empty (Python truthiness); otherwise derive the
reference from the final path segment of `s3-folder-url` with everything
from the first `.tar.gz` stripped.  A missing `s3-folder-url` raises a
`KeyError`, caught and turned into `InvalidMessageException`; a URL with no
final segment makes `re.findall(...)[0]` raise an `IndexError`, which the
`except KeyError` clause does not catch. -/
def get_consignment_reference_v1 (m : Message) : Except Err String :=
  let result := m.consignmentReference.getD ""
  if result ≠ "" then .ok result
  else
    match m.s3FolderUrl with
    | none => .error .invalidMessage
    | some loc =>
      match lastSegment loc with
      | none => .error .indexError
      | some seg => .ok (partitionBefore seg ".tar.gz")

/-- `get_consignment_reference_v2`: the reference must be present and
non-empty under `parameters`; otherwise `InvalidMessageException`. -/
def get_consignment_reference_v2 (m : Message) : Except Err String :=
  match m.parameters.bind MsgParams.reference with
  | some r => if r ≠ "" then .ok r else .error .invalidMessage
  | none => .error .invalidMessage

/-- `get_consignment_reference`: dispatch on the message generation. -/
def get_consignment_reference (m : Message) : Except Err String :=
  if is_v1 m then get_consignment_reference_v1 m else get_consignment_reference_v2 m

/-- An observable side effect of the pipeline, in the order it is issued. -/
inductive Effect
  /-- `sqs_client.send_message` of a JSON-encoded retry message. -/
  | sqsSend (m : Message)
  /-- `api_client.insert_document_xml(uri, xml)`. -/
  | insertXml (uri : String) (xml : String)
  /-- `api_client.save_judgment_xml(uri, xml)` — an update write. -/
  | saveXml (uri : String) (xml : String)
  /-- `api_client.get_judgment_xml(uri, show_unpublished=True)`. -/
  | getXml (uri : String)
  /-- `api_client.set_property(uri, name, value)`. -/
  | setProperty (uri : String) (name : String) (value : String)
  /-- the GOV.UK Notify "new judgment" email to the editorial address. -/
  | notifyNew (uri : String)
  /-- `store_file`: an S3 upload of `filename` under the `folder` prefix. -/
  | upload (folder : String) (filename : String)
  /-- `update_published_documents(uri)`: the public-bucket mirroring pass. -/
  | publishCopy (uri : String)
deriving DecidableEq

/-- True exactly for the update write `api_client.save_judgment_xml`. -/
def Effect.isUpdateWrite : Effect → Bool
  | .saveXml _ _ => true
  | _ => false

/-- `send_retry_message`.  Non-legacy messages are refused with
`MaximumRetriesExceededException("v2 messages cannot yet be retried")` — the
source has no separate exception class for this case.  For legacy messages
the counter `number-of-retries` is read with direct indexing (`KeyError`
when absent), incremented, and compared against `MAX_RETRIES`; within the
bound, a fresh four-key message is built — reading `consignment-reference`
and `consignment-type` with direct indexing, so a `KeyError` escapes when
either is absent — and sent to SQS.  Beyond the bound,
`MaximumRetriesExceededException` is raised, but its message f-string
indexes `consignment-reference` first, so if that key is absent a
`KeyError` escapes before the exception is constructed. -/
def send_retry_message (maxRetries : Int) (m : Message) :
    List Effect × Except Err Unit :=
  if !is_v1 m then ([], .error .maximumRetriesExceeded)
  else
    match m.numberOfRetries with
    | none => ([], .error .keyError)
    | some n =>
      let retryNumber := n + 1
      if retryNumber ≤ maxRetries then
        match m.consignmentReference with
        | none => ([], .error .keyError)
        | some cr =>
          match m.consignmentType with
          | none => ([], .error .keyError)
          | some ct =>
            ([.sqsSend { parameters := none, consignmentReference := some cr,
                         s3FolderUrl := some "", consignmentType := some ct,
                         numberOfRetries := some retryNumber }], .ok ())
      else
        match m.consignmentReference with
        | none => ([], .error .keyError)
        | some _ => ([], .error .maximumRetriesExceeded)

/-- `extract_uri`: the parser-reported URI from metadata with every
occurrence of the ingestion-domain prefix removed (`str.replace` replaces
all occurrences); when the key is absent or the result is empty, a
failure-namespace path keyed by the consignment reference. -/
def extract_uri (md : Metadata) (consignment_reference : String) : String :=
  let uri := md.parserUri
  let uri := if uri ≠ "" then
    replaceAll uri "https://caselaw.nationalarchives.gov.uk/id/" "" else uri
  if uri = "" then "failures/" ++ consignment_reference else uri

/-- `select_uri`: keep the source URI when `api_client.judgment_exists`
reports it absent, else move to `collisions/{now}/{uuid4}` built from the
second-precision timestamp `now` and the freshly drawn token.  The store is
abstracted as the list of URIs at which a judgment exists; `now` and `token`
abstract `datetime.now().strftime("%Y%m%dT%H%M%S")` and `uuid.uuid4()`. -/
def select_uri (store : List String) (now token : String) (source_uri : String) : String :=
  if source_uri ∈ store then "collisions/" ++ now ++ "/" ++ token
  else source_uri

end Ingester

deriving instance DecidableEq for Except

namespace Ingester

/-- The answers the external collaborators give during one invocation:
the MarkLogic store (list of URIs at which a judgment exists, and whether
the insert call fails with `MarklogicCommunicationError`), the legacy HTTP
GET outcome, configuration (`MAX_RETRIES`, `ROLLBAR_ENV`), the clock and the
UUID generator, the XML parser (`ET.XML` succeeds on a string or raises
`ParseError`), the JSON decode of the metadata member, and
`api_client.get_published` for the target URI. -/
structure Env where
  store : List String
  insertFails : Bool
  fetchOk : Bool
  maxRetries : Int
  rollbarEnv : String
  now : String
  token : String
  parseOk : String → Bool
  decodeMeta : String → Metadata
  published : Bool

/-- `save_s3_response_v1`: HTTP GET of `s3-folder-url`.  A missing key is a
`KeyError` raised inside the `try` block; it and any transport/status
failure are caught by `except Exception`, which sends a retry message and
then re-raises.  If the retry send itself raises, that exception propagates
instead.  On success the body is written to `/tmp/{reference}.tar.gz`. -/
def save_s3_response_v1 (env : Env) (m : Message) : List Effect × Except Err String :=
  if m.s3FolderUrl.isNone || !env.fetchOk then
    match send_retry_message env.maxRetries m with
    | (effs, .ok _) =>
      (effs, .error (if m.s3FolderUrl.isNone then .keyError else .s3HTTPError))
    | (effs, .error e) => (effs, .error e)
  else
    match get_consignment_reference_v1 m with
    | .error e => ([], .error e)
    | .ok ref => ([], .ok ("/tmp/" ++ ref ++ ".tar.gz"))

/-- `save_s3_response_v2`: direct S3 download to `/tmp/{reference}.tar.gz`
(the download itself is an external call, assumed to succeed). -/
def save_s3_response_v2 (m : Message) : List Effect × Except Err String :=
  match get_consignment_reference_v2 m with
  | .error e => ([], .error e)
  | .ok ref => ([], .ok ("/tmp/" ++ ref ++ ".tar.gz"))

/-- `save_s3_response`: dispatch on the message generation. -/
def save_s3_response (env : Env) (m : Message) : List Effect × Except Err String :=
  if is_v1 m then save_s3_response_v1 env m else save_s3_response_v2 m

/-- The `for member in tar.getmembers(): if pat in member.name:` loop shared
by `extract_xml_file`, `extract_metadata` and `create_parser_log_xml`: the
content of the last member whose name contains `pat` as a substring. -/
def findMemberSub (tar : List TarMember) (pat : String) : Option String :=
  tar.foldl (fun acc mem => if strContains mem.name pat then some mem.content else acc) none

/-- `extract_xml_file`: the last member whose name contains the XML
filename; the loop only runs when the filename is truthy (non-empty). -/
def extract_xml_file (tar : List TarMember) (xml_file_name : String) : Option String :=
  if xml_file_name = "" then none else findMemberSub tar xml_file_name

/-- `extract_metadata`: the member whose name contains `metadata.json`,
JSON-decoded by the caller; absence raises `FileNotFoundException` (the
source interpolates the consignment reference into the exception message
only). -/
def extract_metadata (tar : List TarMember) : Except Err String :=
  match findMemberSub tar "metadata.json" with
  | none => .error .fileNotFound
  | some c => .ok c

/-- `create_parser_log_xml`: the placeholder
`<error>parser.log not found</error>` unless some member name contains
`parser.log`, in which case (for the last such member) the escaped contents
wrapped in the `<error>` element. -/
def create_parser_log_xml (tar : List TarMember) : String :=
  match findMemberSub tar "parser.log" with
  | some c => "<error>" ++ escape c ++ "</error>"
  | none => "<error>parser.log not found</error>"

/-- `get_best_xml`: parse the named member when present; on a `ParseError`,
or when the member is absent, fall back to the parser-log document.  The
fallback itself is parsed outside any `try`, so a failing fallback parse
escapes as an uncaught `ET.ParseError` (the source's `InvalidXMLException`
class is never raised).  The result is the string handed to MarkLogic.
`parseOk` abstracts whether `ET.XML` accepts a string. -/
def get_best_xml (parseOk : String → Bool) (tar : List TarMember)
    (xml_file_name : String) : Except Err String :=
  match extract_xml_file tar xml_file_name with
  | some contents =>
    if parseOk contents then .ok contents
    else
      let fallback := create_parser_log_xml tar
      if parseOk fallback then .ok fallback else .error .parseError
  | none =>
    let fallback := create_parser_log_xml tar
    if parseOk fallback then .ok fallback else .error .parseError

/-- `tarfile.extractfile(name)` with an exact member name: the last member
with that exact name (`tarfile.getmember` takes the last occurrence), or a
`KeyError` (here `none`) when no member has it. -/
def getMember (tar : List TarMember) (name : String) : Option String :=
  tar.foldl (fun acc mem => if mem.name = name then some mem.content else acc) none

/-- `extract_docx_filename`:
`metadata["parameters"]["TRE"]["payload"]["filename"]`, with a missing key
turned into `DocxFilenameNotFoundException`. -/
def extract_docx_filename (md : Metadata) : Except Err String :=
  match md.docxFilename with
  | some f => .ok f
  | none => .error .docxFilenameNotFound

/-- `copy_file`: extract the exactly-named member and upload it under the
target URI; a `KeyError` from `extractfile` becomes
`FileNotFoundException`.  (`store_file` itself swallows local
`FileNotFoundError`/`NoCredentialsError`, so the upload is modelled as
succeeding.) -/
def copy_file (tar : List TarMember) (input_filename output_filename uri : String) :
    Except Err Effect :=
  match getMember tar input_filename with
  | some _ => .ok (.upload uri output_filename)
  | none => .error .fileNotFound

/-- The image-copy loop of the handler: each listed image is copied with
`copy_file` with no surrounding `try`, so the first missing image aborts
the loop with `FileNotFoundException`, keeping the effects of the ones
already copied. -/
def copyImages (tar : List TarMember) (ref target : String) :
    List String → List Effect × Except Err Unit
  | [] => ([], .ok ())
  | img :: rest =>
    match copy_file tar (ref ++ "/" ++ img) img target with
    | .error e => ([], .error e)
    | .ok eff =>
      let r := copyImages tar ref target rest
      (eff :: r.1, r.2)

/-- The asset-copying stage of the handler (source lines 419–457): the docx
(renamed to the slug of the target URI; fatal when the filename is missing
from metadata or the member from the archive), the parser log (its
`FileNotFoundException` is caught and passed), each listed image (not
guarded), and finally the original archive file uploaded from disk. -/
def copyStage (ref target : String) (md : Metadata) (tar : List TarMember)
    (filename : String) : List Effect × Except Err Unit :=
  match extract_docx_filename md with
  | .error e => ([], .error e)
  | .ok docx =>
    match copy_file tar (ref ++ "/" ++ docx) (replaceAll target "/" "_" ++ ".docx") target with
    | .error e => ([], .error e)
    | .ok docxEff =>
      let logEffs := match copy_file tar (ref ++ "/parser.log") "parser.log" target with
        | .ok e => [e]
        | .error _ => []
      match copyImages tar ref target md.images with
      | (imgEffs, .error e) => (docxEff :: logEffs ++ imgEffs, .error e)
      | (imgEffs, .ok _) =>
        (docxEff :: logEffs ++ imgEffs ++ [.upload target (basename filename)], .ok ())

/-- `store_metadata`: the five `set_property` calls on the target URI. -/
def store_metadata (uri : String) (md : Metadata) : List Effect :=
  [.setProperty uri "source-organisation" md.tdr.sourceOrganization,
   .setProperty uri "source-name" md.tdr.contactName,
   .setProperty uri "source-email" md.tdr.contactEmail,
   .setProperty uri "transfer-consignment-reference" md.tdr.internalSenderIdentifier,
   .setProperty uri "transfer-received-at" md.tdr.consignmentCompletedDatetime]

/-- `send_new_judgment_notification`: returns without sending unless
`ROLLBAR_ENV` is `prod`; otherwise one templated email to the editorial
address about the target URI. -/
def send_new_judgment_notification (rollbarEnv uri : String) : List Effect :=
  if rollbarEnv ≠ "prod" then [] else [.notifyNew uri]

/-- `insert_document_xml`: one insert write; `MarklogicCommunicationError`
(abstracted as `insertFails`) is caught and reported as `false`. -/
def insert_document_xml (insertFails : Bool) (uri xml : String) : List Effect × Bool :=
  ([.insertXml uri xml], !insertFails)

/-- `update_judgment_xml`: read then update write; dead code in this file —
the handler never calls it. -/
def update_judgment_xml (store : List String) (uri xml : String) : List Effect × Bool :=
  if uri ∈ store then ([.getXml uri, .saveXml uri xml], true)
  else ([.getXml uri], false)

/-- `update_published_documents`: the list-and-copy pass over the private
bucket into the public bucket, abstracted as one effect (its S3 listing is
external state the pipeline only forwards). -/
def update_published_documents (uri : String) : List Effect :=
  [.publishCopy uri]

/-- The outcome of one invocation of `handler`: the returned value or
escaped exception, the ordered external effects, and the fate of the two
archive resources (whether `tarfile.open` ran, whether `tar.close()` ran,
whether the `/tmp` archive file was created, whether it was deleted). -/
structure RunResult where
  outcome : Except Err Unit
  effects : List Effect
  tarOpened : Bool
  tarClosed : Bool
  tmpCreated : Bool
  tmpDeleted : Bool
deriving DecidableEq

/-- `handler` (the `@rollbar.lambda_function` entry point), for an
already-decoded message and archive contents: normalize, retrieve, open the
archive, read metadata, resolve the source and target URIs, resolve the
XML, insert, notify, store properties, copy assets, mirror published
documents, close the archive.  `tar.close()` is the last statement of the
success path only, and no path deletes the `/tmp` file. -/
def handler (env : Env) (m : Message) (tar : List TarMember) : RunResult :=
  match get_consignment_reference m with
  | .error e => ⟨.error e, [], false, false, false, false⟩
  | .ok ref =>
    match save_s3_response env m with
    | (effs, .error e) => ⟨.error e, effs, false, false, false, false⟩
    | (effs, .ok filename) =>
      match extract_metadata tar with
      | .error e => ⟨.error e, effs, true, false, true, false⟩
      | .ok raw =>
        let md := env.decodeMeta raw
        let source_uri := extract_uri md ref
        let target_uri := select_uri env.store env.now env.token source_uri
        match get_best_xml env.parseOk tar md.xmlFileName with
        | .error e => ⟨.error e, effs, true, false, true, false⟩
        | .ok xml =>
          let ins := insert_document_xml env.insertFails target_uri xml
          if ins.2 then
            let notifyEffs := send_new_judgment_notification env.rollbarEnv target_uri
            let metaEffs := store_metadata target_uri md
            match copyStage ref target_uri md tar filename with
            | (ceffs, .error e) =>
              ⟨.error e, effs ++ ins.1 ++ notifyEffs ++ metaEffs ++ ceffs,
               true, false, true, false⟩
            | (ceffs, .ok _) =>
              let pubEffs := if env.published then update_published_documents target_uri
                else []
              ⟨.ok (), effs ++ ins.1 ++ notifyEffs ++ metaEffs ++ ceffs ++ pubEffs,
               true, true, true, false⟩
          else
            ⟨.error .documentInsertion, effs ++ ins.1, true, false, true, false⟩

/-! Concrete scenario data used by witnesses and counterexamples: a
well-formed legacy message whose archive carries metadata, XML, docx,
parser log and one image. -/

/-- A well-formed legacy message. -/
def sampleMessage : Message :=
  ⟨none, some "TDR-2022-123", some "https://example.com/TDR-2022-123.tar.gz",
   some "judgment", some 0⟩

/-- The decoded metadata of the sample consignment. -/
def sampleMeta : Metadata :=
  ⟨"https://caselaw.nationalarchives.gov.uk/id/ewhc/2022/1", "judgment.xml",
   some "judgment.docx", ["image1.png"],
   ⟨"MoJ", "Alice Smith", "alice@example.com", "TDR-2022-123", "2022-01-01T00:00:00Z"⟩⟩

/-- The members of the sample consignment archive. -/
def sampleTar : List TarMember :=
  [⟨"TDR-2022-123/TRE-metadata.json", "rawmeta"⟩,
   ⟨"TDR-2022-123/judgment.xml", "<akomaNtoso/>"⟩,
   ⟨"TDR-2022-123/judgment.docx", "docxbytes"⟩,
   ⟨"TDR-2022-123/parser.log", "log line"⟩,
   ⟨"TDR-2022-123/image1.png", "pngbytes"⟩]

/-- The sample archive with the listed image member missing. -/
def sampleTarNoImage : List TarMember :=
  sampleTar.filter (fun mem => mem.name ≠ "TDR-2022-123/image1.png")

/-- The sample archive with no metadata member. -/
def sampleTarNoMeta : List TarMember :=
  sampleTar.filter (fun mem => mem.name ≠ "TDR-2022-123/TRE-metadata.json")

/-- A production environment in which every collaborator succeeds and the
sample source URI is free. -/
def sampleEnv : Env :=
  { store := [], insertFails := false, fetchOk := true, maxRetries := 5,
    rollbarEnv := "prod", now := "20220101T000000", token := "u-1",
    parseOk := fun _ => true, decodeMeta := fun _ => sampleMeta, published := false }

end Ingester

namespace Ingester

/-- Claim C2: URI resolution returns the source URI when the store reports
no judgment at it; when the source URI exists, the target is the collision
path built from the second-precision timestamp and the fresh token, is
distinct from the source URI, and — given that the freshly drawn token
makes a path not yet in the store — never reuses an existing URI. -/
theorem claim_C2_select_uri (store : List String) (src now token : String)
    (hfresh : ("collisions/" ++ now ++ "/" ++ token) ∉ store) :
    (src ∉ store → select_uri store now token src = src) ∧
    (src ∈ store →
      select_uri store now token src = "collisions/" ++ now ++ "/" ++ token ∧
      select_uri store now token src ≠ src ∧
      select_uri store now token src ∉ store) := by
  constructor
  · intro h
    simp [select_uri, h]
  · intro h
    have hsel : select_uri store now token src = "collisions/" ++ now ++ "/" ++ token := by
      simp [select_uri, h]
    refine ⟨hsel, ?_, ?_⟩
    · rw [hsel]
      intro hEq
      exact hfresh (hEq ▸ h)
    · rw [hsel]
      exact hfresh

/-- Witness for C2 at a store already holding the source URI. -/
theorem claim_C2_witness :
    select_uri ["a/b"] "20220101T000000" "u-1" "a/b" = "collisions/20220101T000000/u-1" ∧
    select_uri ["a/b"] "20220101T000000" "u-1" "a/b" ≠ "a/b" := by
  have h := claim_C2_select_uri ["a/b"] "a/b" "20220101T000000" "u-1" (by decide)
  exact ⟨(h.2 (by decide)).1, (h.2 (by decide)).2.1⟩

/-- Claim C3: when the named XML member is absent or fails to parse, XML
resolution yields the synthesized parser-log document (provided the
synthesized document itself parses, which escaping is designed to ensure);
that document is the escaped parser-log contents wrapped in the error
element when a parser-log member exists, and the fixed placeholder when
none does. -/
theorem claim_C3_xml_fallback (parseOk : String → Bool) (tar : List TarMember)
    (xml_file_name : String)
    (habsent : extract_xml_file tar xml_file_name = none ∨
      ∃ c, extract_xml_file tar xml_file_name = some c ∧ parseOk c = false)
    (hfb : parseOk (create_parser_log_xml tar) = true) :
    get_best_xml parseOk tar xml_file_name = .ok (create_parser_log_xml tar) ∧
    (∀ c, findMemberSub tar "parser.log" = some c →
      create_parser_log_xml tar = "<error>" ++ escape c ++ "</error>") ∧
    (findMemberSub tar "parser.log" = none →
      create_parser_log_xml tar = "<error>parser.log not found</error>") := by
  refine ⟨?_, ?_, ?_⟩
  · rcases habsent with h | ⟨c, hc, hp⟩
    · simp [get_best_xml, h, hfb]
    · simp [get_best_xml, hc, hp, hfb]
  · intro c hc
    simp [create_parser_log_xml, hc]
  · intro hc
    simp [create_parser_log_xml, hc]

/-- Witness for C3: an archive with no XML member and a parser log whose
contents need escaping. -/
theorem claim_C3_witness :
    get_best_xml (fun _ => true) [⟨"TDR-1/parser.log", "oops & <bad>"⟩] "judgment.xml" =
      .ok "<error>oops &amp; &lt;bad&gt;</error>" :=
  (claim_C3_xml_fallback (fun _ => true) [⟨"TDR-1/parser.log", "oops & <bad>"⟩]
    "judgment.xml" (Or.inl (by decide)) rfl).1

/-- Counterexample to C5 as stated: a legacy message with no
`consignment-reference` whose `s3-folder-url` ends in `/` has no usable
reference, yet normalization raises an uncaught `IndexError` instead of the
`MalformedMessage` error the claim requires. -/
theorem claim_C5_counterexample :
    get_consignment_reference
        ⟨none, none, some "https://bucket.s3.amazonaws.com/", none, none⟩ =
      .error .indexError ∧
    Err.indexError ≠ Err.invalidMessage := by
  decide

/-- Claim C5 as amended: a legacy reference comes from the explicit field
when present and non-empty, else from the final path segment of the archive
URL with the `.tar.gz` suffix stripped; a legacy message with neither field
fails with `InvalidMessageException` (`MalformedMessage`), as does a
current-generation message without `parameters.reference` — except that a
legacy message whose `s3-folder-url` is present but has an empty final
segment raises an uncaught `IndexError` instead. -/
theorem claim_C5_normalization (m : Message) :
    (is_v1 m = true →
      (∀ cr, m.consignmentReference = some cr → cr ≠ "" →
        get_consignment_reference m = .ok cr) ∧
      (m.consignmentReference.getD "" = "" →
        (m.s3FolderUrl = none →
          get_consignment_reference m = .error .invalidMessage) ∧
        (∀ loc seg, m.s3FolderUrl = some loc → lastSegment loc = some seg →
          get_consignment_reference m = .ok (partitionBefore seg ".tar.gz")) ∧
        (∀ loc, m.s3FolderUrl = some loc → lastSegment loc = none →
          get_consignment_reference m = .error .indexError))) ∧
    (is_v1 m = false →
      (m.parameters.bind MsgParams.reference = none ∨
          m.parameters.bind MsgParams.reference = some "" →
        get_consignment_reference m = .error .invalidMessage) ∧
      (∀ r, m.parameters.bind MsgParams.reference = some r → r ≠ "" →
        get_consignment_reference m = .ok r)) := by
  constructor
  · intro hv1
    constructor
    · intro cr hcr hne
      simp [get_consignment_reference, hv1, get_consignment_reference_v1, hcr, hne]
    · intro hempty
      refine ⟨?_, ?_, ?_⟩
      · intro hurl
        simp [get_consignment_reference, hv1, get_consignment_reference_v1, hempty, hurl]
      · intro loc seg hurl hseg
        simp [get_consignment_reference, hv1, get_consignment_reference_v1, hempty,
          hurl, hseg]
      · intro loc hurl hseg
        simp [get_consignment_reference, hv1, get_consignment_reference_v1, hempty,
          hurl, hseg]
  · intro hv2
    constructor
    · intro href
      rcases href with h | h <;>
        simp [get_consignment_reference, hv2, get_consignment_reference_v2, h]
    · intro r href hne
      simp [get_consignment_reference, hv2, get_consignment_reference_v2, href, hne]

/-- Witness for C5: both-fields-missing legacy message fails with
`InvalidMessageException`. -/
theorem claim_C5_witness :
    get_consignment_reference ⟨none, none, none, none, none⟩ =
      .error .invalidMessage :=
  (((claim_C5_normalization ⟨none, none, none, none, none⟩).1 rfl).2 rfl).1 rfl

/-- Counterexample to C4 as stated: a legacy message lacking the explicit
`consignment-reference` key and with retries still available gets no requeue
at all — building the requeue message raises an uncaught `KeyError` — while
the claim promises a requeue message with the incremented counter. -/
theorem claim_C4_counterexample :
    send_retry_message 5
        ⟨none, none, some "https://x/TDR-1.tar.gz", some "judgment", some 0⟩ =
      ([], .error .keyError) ∧
    ((0 : Int) + 1 ≤ 5) ∧
    Err.keyError ≠ Err.maximumRetriesExceeded := by
  decide

/-- Claim C4 as amended: for every legacy message carrying the
`consignment-reference`, `consignment-type` and `number-of-retries` keys,
the Retry Controller increments the counter by exactly 1; within the
configured maximum it sends one requeue message identical to the inbound
message except for the incremented counter and an emptied archive URL;
beyond it, it fails with `MaximumRetriesExceededException` and sends
nothing. -/
theorem claim_C4_retry (maxRetries : Int) (m : Message) (cr ct : String) (n : Int)
    (hv1 : is_v1 m = true)
    (hcr : m.consignmentReference = some cr)
    (hct : m.consignmentType = some ct)
    (hn : m.numberOfRetries = some n) :
    (n + 1 ≤ maxRetries →
      send_retry_message maxRetries m =
        ([.sqsSend { m with s3FolderUrl := some "", numberOfRetries := some (n + 1) }],
         .ok ())) ∧
    (maxRetries < n + 1 →
      send_retry_message maxRetries m = ([], .error .maximumRetriesExceeded)) := by
  have hp : m.parameters = none := by
    simpa [is_v1, Option.isNone_iff_eq_none] using hv1
  cases m
  simp only [Message.mk.injEq] at *
  subst hp hcr hct hn
  constructor
  · intro hle
    simp [send_retry_message, is_v1, hle]
  · intro hgt
    simp [send_retry_message, is_v1, not_le.mpr hgt]

/-- Witness for C4: a requeue within the bound increments 2 to 3 and clears
the URL. -/
theorem claim_C4_witness :
    send_retry_message 5
        ⟨none, some "TDR-1", some "https://x/y.tar.gz", some "judgment", some 2⟩ =
      ([.sqsSend ⟨none, some "TDR-1", some "", some "judgment", some 3⟩], .ok ()) :=
  (claim_C4_retry 5 ⟨none, some "TDR-1", some "https://x/y.tar.gz", some "judgment", some 2⟩
    "TDR-1" "judgment" 2 rfl rfl rfl rfl).1 (by decide)

/-- Counterexample to C9 as stated: the error raised for a
current-generation retry attempt is not a distinct `RetryUnsupported` kind —
it is the very same `MaximumRetriesExceededException` raised when a legacy
message exhausts its retries. -/
theorem claim_C9_counterexample :
    (send_retry_message 5 ⟨some ⟨some "ref-1", none, none⟩, none, none, none, none⟩).2 =
      .error .maximumRetriesExceeded ∧
    (send_retry_message 5 ⟨none, some "TDR-1", some "u", some "judgment", some 5⟩).2 =
      .error .maximumRetriesExceeded ∧
    (send_retry_message 5 ⟨some ⟨some "ref-1", none, none⟩, none, none, none, none⟩).1 =
      [] := by
  decide

/-- Claim C9 as amended: a retry attempt for every current-generation
message fails fatally — with `MaximumRetriesExceededException`, the source
reusing the retry-exhaustion exception class rather than a distinct
`RetryUnsupported` error — and sends no requeue message. -/
theorem claim_C9_v2_retry (maxRetries : Int) (m : Message)
    (h : is_v1 m = false) :
    send_retry_message maxRetries m = ([], .error .maximumRetriesExceeded) := by
  simp [send_retry_message, h]

/-- Witness for C9 at a concrete current-generation message. -/
theorem claim_C9_witness :
    send_retry_message 5
        ⟨some ⟨some "ref-2", some "bucket", some "key"⟩, some "TDR-2", some "url",
         some "judgment", some 0⟩ =
      ([], .error .maximumRetriesExceeded) :=
  claim_C9_v2_retry 5 _ rfl

/-- Claim C10: a legacy message with no explicit `consignment-reference`
key still normalizes (the reference is derived from the URL's final path
segment), but when retrieval fails the automatic retry attempt raises an
uncaught `KeyError` while building the requeue message — nothing is sent to
the queue and the escaped error is not part of the pipeline's
`ReportableException` taxonomy. -/
theorem claim_C10_retry_keyerror (env : Env) (m : Message) (n : Int)
    (loc seg : String)
    (hv1 : is_v1 m = true)
    (hcr : m.consignmentReference = none)
    (hurl : m.s3FolderUrl = some loc)
    (hseg : lastSegment loc = some seg)
    (hn : m.numberOfRetries = some n)
    (hmax : n + 1 ≤ env.maxRetries)
    (hfail : env.fetchOk = false) :
    get_consignment_reference m = .ok (partitionBefore seg ".tar.gz") ∧
    save_s3_response env m = ([], .error .keyError) ∧
    isReportable .keyError = false := by
  refine ⟨?_, ?_, rfl⟩
  · simp [get_consignment_reference, hv1, get_consignment_reference_v1, hcr, hurl, hseg]
  · simp [save_s3_response, hv1, save_s3_response_v1, hurl, hfail,
      send_retry_message, hv1, hn, hmax, hcr]

/-- Witness for C10: retrieval failure for a reference-less legacy message. -/
theorem claim_C10_witness :
    save_s3_response { sampleEnv with fetchOk := false }
        ⟨none, none, some "https://x/TDR-1.tar.gz", some "judgment", some 0⟩ =
      ([], .error .keyError) :=
  (claim_C10_retry_keyerror { sampleEnv with fetchOk := false }
    ⟨none, none, some "https://x/TDR-1.tar.gz", some "judgment", some 0⟩ 0
    "https://x/TDR-1.tar.gz" "TDR-1.tar.gz" rfl rfl rfl (by decide) rfl (by decide)
    rfl).2.1

/-- A successful `copy_file` uploads the output filename under the URI. -/
theorem copy_file_ok_shape {tar : List TarMember} {a b uri : String} {e : Effect}
    (h : copy_file tar a b uri = .ok e) : e = .upload uri b := by
  unfold copy_file at h
  cases hm : getMember tar a <;> rw [hm] at h <;> simp at h
  exact h.symm

/-- Every effect of the image-copy loop is an upload under the target. -/
theorem copyImages_effects_upload (tar : List TarMember) (ref target : String) :
    ∀ imgs, ∀ e ∈ (copyImages tar ref target imgs).1, ∃ i, e = Effect.upload target i := by
  intro imgs
  induction imgs with
  | nil =>
    intro e he
    simp [copyImages] at he
  | cons img rest ih =>
    intro e he
    unfold copyImages at he
    cases hcf : copy_file tar (ref ++ "/" ++ img) img target with
    | error e2 =>
      rw [hcf] at he
      simp at he
    | ok eff =>
      rw [hcf] at he
      simp at he
      rcases he with he | he
      · exact ⟨img, by rw [he, copy_file_ok_shape hcf]⟩
      · exact ih e he

/-- Every effect of the asset-copying stage is an upload. -/
theorem copyStage_effects_upload (ref target : String) (md : Metadata)
    (tar : List TarMember) (filename : String) :
    ∀ e ∈ (copyStage ref target md tar filename).1, ∃ f n, e = Effect.upload f n := by
  intro e he
  unfold copyStage at he
  cases hd : extract_docx_filename md with
  | error e2 =>
    rw [hd] at he
    simp at he
  | ok docx =>
    rw [hd] at he
    dsimp only at he
    cases hcf : copy_file tar (ref ++ "/" ++ docx) (replaceAll target "/" "_" ++ ".docx")
        target with
    | error e2 =>
      rw [hcf] at he
      simp at he
    | ok docxEff =>
      rw [hcf] at he
      dsimp only at he
      cases hlog : copy_file tar (ref ++ "/parser.log") "parser.log" target with
      | error e2 =>
        rw [hlog] at he
        cases hci : copyImages tar ref target md.images with
        | mk imgEffs cout =>
          rw [hci] at he
          have himg : ∀ x ∈ imgEffs, ∃ i, x = Effect.upload target i := by
            intro x hx
            exact copyImages_effects_upload tar ref target md.images x (by rw [hci]; exact hx)
          cases cout with
          | error e3 =>
            simp at he
            rcases he with he | he
            · exact ⟨target, _, copy_file_ok_shape hcf ▸ he⟩
            · rcases himg e he with ⟨i, hi⟩
              exact ⟨target, i, hi⟩
          | ok u =>
            simp at he
            rcases he with he | he | he
            · exact ⟨target, _, copy_file_ok_shape hcf ▸ he⟩
            · rcases himg e he with ⟨i, hi⟩
              exact ⟨target, i, hi⟩
            · exact ⟨target, basename filename, he⟩
      | ok logEff =>
        rw [hlog] at he
        cases hci : copyImages tar ref target md.images with
        | mk imgEffs cout =>
          rw [hci] at he
          have himg : ∀ x ∈ imgEffs, ∃ i, x = Effect.upload target i := by
            intro x hx
            exact copyImages_effects_upload tar ref target md.images x (by rw [hci]; exact hx)
          cases cout with
          | error e3 =>
            simp at he
            rcases he with he | he | he
            · exact ⟨target, _, copy_file_ok_shape hcf ▸ he⟩
            · exact ⟨target, "parser.log", copy_file_ok_shape hlog ▸ he⟩
            · rcases himg e he with ⟨i, hi⟩
              exact ⟨target, i, hi⟩
          | ok u =>
            simp at he
            rcases he with he | he | he | he
            · exact ⟨target, _, copy_file_ok_shape hcf ▸ he⟩
            · exact ⟨target, "parser.log", copy_file_ok_shape hlog ▸ he⟩
            · rcases himg e he with ⟨i, hi⟩
              exact ⟨target, i, hi⟩
            · exact ⟨target, basename filename, he⟩

/-- The notification stage emits at most the "new judgment" email. -/
theorem send_new_judgment_notification_mem (renv uri : String) :
    ∀ e ∈ send_new_judgment_notification renv uri, e = Effect.notifyNew uri := by
  intro e he
  unfold send_new_judgment_notification at he
  split at he <;> simp at he
  exact he

/-- When every listed image is present, the loop uploads each in order. -/
theorem copyImages_all_present (tar : List TarMember) (ref target : String) :
    ∀ imgs, (∀ img ∈ imgs, (getMember tar (ref ++ "/" ++ img)).isSome = true) →
      copyImages tar ref target imgs =
        (imgs.map (fun i => Effect.upload target i), .ok ()) := by
  intro imgs
  induction imgs with
  | nil =>
    intro _
    simp [copyImages]
  | cons img rest ih =>
    intro hall
    rcases Option.isSome_iff_exists.mp (hall img (by simp)) with ⟨c, hc⟩
    have hrest := ih (fun i hi => hall i (by simp [hi]))
    simp [copyImages, copy_file, hc, hrest]

/-- When some listed image is absent, the loop fails with
`FileNotFoundException`. -/
theorem copyImages_missing (tar : List TarMember) (ref target : String) :
    ∀ imgs, (∃ img ∈ imgs, getMember tar (ref ++ "/" ++ img) = none) →
      (copyImages tar ref target imgs).2 = .error .fileNotFound := by
  intro imgs
  induction imgs with
  | nil =>
    intro h
    simp at h
  | cons img rest ih =>
    intro h
    rcases h with ⟨i, hi, hnone⟩
    rcases List.mem_cons.mp hi with rfl | hmem
    · simp [copyImages, copy_file, hnone]
    · cases hc : getMember tar (ref ++ "/" ++ img) with
      | none => simp [copyImages, copy_file, hc]
      | some c =>
        have hrest := ih ⟨i, hmem, hnone⟩
        simp [copyImages, copy_file, hc, hrest]

/-- Counterexample to C7 as stated: with a listed image absent from the
sample archive, the invocation fails with `FileNotFoundException` and the
remaining copy (the original archive) is never performed — the absence of
an optional file does abort the rest. -/
theorem claim_C7_counterexample :
    (handler sampleEnv sampleMessage sampleTarNoImage).outcome = .error .fileNotFound ∧
    Effect.upload "ewhc/2022/1" "TDR-2022-123.tar.gz" ∉
      (handler sampleEnv sampleMessage sampleTarNoImage).effects := by
  decide

/-- Claim C7 as amended: with the docx present, parser-log absence is
tolerated (the stage succeeds and merely skips that upload), the image list
may be empty, and each copy otherwise proceeds in order — but a listed
image that is absent from the archive aborts the stage with
`FileNotFoundException` (so the remaining copies never run and the
invocation fails). -/
theorem claim_C7_copy_stage (tar : List TarMember) (ref target filename docx : String)
    (md : Metadata)
    (hdocx : md.docxFilename = some docx)
    (hmem : (getMember tar (ref ++ "/" ++ docx)).isSome = true) :
    ((∀ img ∈ md.images, (getMember tar (ref ++ "/" ++ img)).isSome = true) →
      copyStage ref target md tar filename =
        (Effect.upload target (replaceAll target "/" "_" ++ ".docx") ::
          (if (getMember tar (ref ++ "/parser.log")).isSome then
            [Effect.upload target "parser.log"] else []) ++
          md.images.map (fun i => Effect.upload target i) ++
          [Effect.upload target (basename filename)],
         .ok ())) ∧
    ((∃ img ∈ md.images, getMember tar (ref ++ "/" ++ img) = none) →
      (copyStage ref target md tar filename).2 = .error .fileNotFound) := by
  rcases Option.isSome_iff_exists.mp hmem with ⟨c, hc⟩
  constructor
  · intro hall
    have hci := copyImages_all_present tar ref target md.images hall
    cases hlog : getMember tar (ref ++ "/parser.log") with
    | none =>
      simp [copyStage, extract_docx_filename, hdocx, copy_file, hc, hlog, hci]
    | some l =>
      simp [copyStage, extract_docx_filename, hdocx, copy_file, hc, hlog, hci]
  · intro hex
    have h2 := copyImages_missing tar ref target md.images hex
    cases hci : copyImages tar ref target md.images with
    | mk imgEffs cout =>
      rw [hci] at h2
      dsimp only at h2
      subst h2
      cases hlog : getMember tar (ref ++ "/parser.log") with
      | none =>
        simp [copyStage, extract_docx_filename, hdocx, copy_file, hc, hlog, hci]
      | some l =>
        simp [copyStage, extract_docx_filename, hdocx, copy_file, hc, hlog, hci]

/-- Witness for C7 on the sample archive: docx, parser log, the image and
the original archive are all uploaded and the stage succeeds. -/
theorem claim_C7_witness :
    copyStage "TDR-2022-123" "ewhc/2022/1" sampleMeta sampleTar
        "/tmp/TDR-2022-123.tar.gz" =
      ([Effect.upload "ewhc/2022/1" "ewhc_2022_1.docx",
        Effect.upload "ewhc/2022/1" "parser.log",
        Effect.upload "ewhc/2022/1" "image1.png",
        Effect.upload "ewhc/2022/1" "TDR-2022-123.tar.gz"], .ok ()) :=
  (claim_C7_copy_stage sampleTar "TDR-2022-123" "ewhc/2022/1"
    "/tmp/TDR-2022-123.tar.gz" "judgment.docx" sampleMeta rfl (by decide)).1
    (by decide)

/-- The Retry Controller only ever emits queue sends. -/
theorem send_retry_message_no_update (maxRetries : Int) (m : Message) :
    ((send_retry_message maxRetries m).1.all fun x => !x.isUpdateWrite) = true := by
  unfold send_retry_message
  split
  · rfl
  · dsimp only
    split
    · rfl
    · split
      · split
        · rfl
        · split
          · rfl
          · rfl
      · split
        · rfl
        · rfl

/-- The retrieval stage only ever emits queue sends. -/
theorem save_s3_response_no_update (env : Env) (m : Message) :
    ((save_s3_response env m).1.all fun x => !x.isUpdateWrite) = true := by
  unfold save_s3_response save_s3_response_v1 save_s3_response_v2
  split
  · split
    · split
      next effs u heq =>
        have h := send_retry_message_no_update env.maxRetries m
        rw [heq] at h
        simpa using h
      next effs e heq =>
        have h := send_retry_message_no_update env.maxRetries m
        rw [heq] at h
        simpa using h
    · split <;> rfl
  · split <;> rfl

/-- The asset-copying stage only ever emits uploads. -/
theorem copyStage_no_update (ref target : String) (md : Metadata)
    (tar : List TarMember) (filename : String) :
    ((copyStage ref target md tar filename).1.all fun x => !x.isUpdateWrite) = true := by
  apply List.all_eq_true.mpr
  intro x hx
  rcases copyStage_effects_upload ref target md tar filename x hx with ⟨f, n, rfl⟩
  rfl

/-- The notification stage only ever emits the notification email. -/
theorem send_new_judgment_notification_no_update (renv uri : String) :
    ((send_new_judgment_notification renv uri).all fun x => !x.isUpdateWrite) = true := by
  unfold send_new_judgment_notification
  split <;> rfl

/-- The handler never issues an update write (`save_judgment_xml`): the
function `update_judgment_xml` is dead code in the source. -/
theorem handler_no_update (env : Env) (m : Message) (tar : List TarMember) :
    ((handler env m tar).effects.all fun e => !e.isUpdateWrite) = true := by
  suffices h : ∀ r : RunResult, handler env m tar = r →
      (r.effects.all fun e => !e.isUpdateWrite) = true from h _ rfl
  intro r hr
  unfold handler at hr
  split at hr
  case h_1 e1 heq1 =>
    rw [← hr]
    rfl
  case h_2 ref heq1 =>
    split at hr
    case h_1 effs e2 heq2 =>
      rw [← hr]
      have h := save_s3_response_no_update env m
      rw [heq2] at h
      simpa using h
    case h_2 effs filename heq2 =>
      have heffs : (effs.all fun e => !e.isUpdateWrite) = true := by
        have h := save_s3_response_no_update env m
        rw [heq2] at h
        simpa using h
      cases h3 : extract_metadata tar with
      | error e3 =>
        rw [h3] at hr
        try dsimp only at hr
        rw [← hr]
        simpa using heffs
      | ok raw =>
        rw [h3] at hr
        try dsimp only at hr
        cases h4 : get_best_xml env.parseOk tar (env.decodeMeta raw).xmlFileName with
        | error e4 =>
          rw [h4] at hr
          try dsimp only at hr
          rw [← hr]
          simpa using heffs
        | ok xml =>
          rw [h4] at hr
          simp only [insert_document_xml] at hr
          cases hf : env.insertFails with
          | true =>
            rw [hf] at hr
            rw [if_neg (show ¬((!true) = true) by decide)] at hr
            rw [← hr]
            simp only [List.all_append, Bool.and_eq_true]
            exact ⟨heffs, rfl⟩
          | false =>
            rw [hf] at hr
            rw [if_pos (show (!false) = true by decide)] at hr
            have hcall := copyStage_no_update ref
              (select_uri env.store env.now env.token
                (extract_uri (env.decodeMeta raw) ref))
              (env.decodeMeta raw) tar filename
            rcases hcs : copyStage ref
                (select_uri env.store env.now env.token
                  (extract_uri (env.decodeMeta raw) ref))
                (env.decodeMeta raw) tar filename with ⟨ceffs, cout⟩
            rw [hcs] at hr hcall
            have hceffs : (ceffs.all fun e => !e.isUpdateWrite) = true := by
              simpa using hcall
            cases cout with
            | error e5 =>
              try dsimp only at hr
              rw [← hr]
              simp only [List.all_append, Bool.and_eq_true]
              exact ⟨⟨⟨⟨heffs, rfl⟩, send_new_judgment_notification_no_update
                env.rollbarEnv _⟩, rfl⟩, hceffs⟩
            | ok u =>
              try dsimp only at hr
              rw [← hr]
              simp only [List.all_append, Bool.and_eq_true]
              refine ⟨⟨⟨⟨⟨heffs, rfl⟩, send_new_judgment_notification_no_update
                env.rollbarEnv _⟩, rfl⟩, hceffs⟩, ?_⟩
              split <;> rfl

/-- Counterexample to C1 as stated: in a run where the document store
already holds content at the resolved target URI (the collision path is
itself occupied), the writer still issues an insert write and never an
update write, contradicting the claimed insert-vs-update decision. -/
theorem claim_C1_counterexample :
    ("collisions/20220101T000000/u-1" ∈
      (["ewhc/2022/1", "collisions/20220101T000000/u-1"] : List String)) ∧
    Effect.insertXml "collisions/20220101T000000/u-1" "<akomaNtoso/>" ∈
      (handler { sampleEnv with store := ["ewhc/2022/1", "collisions/20220101T000000/u-1"] }
        sampleMessage sampleTar).effects ∧
    (∀ e ∈ (handler { sampleEnv with store := ["ewhc/2022/1", "collisions/20220101T000000/u-1"] }
        sampleMessage sampleTar).effects, e.isUpdateWrite = false) := by
  decide

/-- Claim C1 as amended: the Document Store Writer always issues an insert
write for the resolved target URI — never an update write, whatever the
store holds — and when the insert fails at the store layer the invocation
fails with `DocumentInsertionError` with no downstream notification,
property-write, asset-copy or publication effect. -/
theorem claim_C1_insert_only (env : Env) (m : Message) (tar : List TarMember)
    (ref filename raw xml target : String)
    (h1 : get_consignment_reference m = .ok ref)
    (h2 : save_s3_response env m = ([], .ok filename))
    (h3 : extract_metadata tar = .ok raw)
    (htarget : select_uri env.store env.now env.token
        (extract_uri (env.decodeMeta raw) ref) = target)
    (h4 : get_best_xml env.parseOk tar (env.decodeMeta raw).xmlFileName = .ok xml) :
    Effect.insertXml target xml ∈ (handler env m tar).effects ∧
    (∀ e ∈ (handler env m tar).effects, e.isUpdateWrite = false) ∧
    (env.insertFails = true →
      handler env m tar =
        ⟨.error .documentInsertion, [Effect.insertXml target xml],
         true, false, true, false⟩) := by
  refine ⟨?_, ?_, ?_⟩
  · cases hf : env.insertFails with
    | true =>
      simp [handler, h1, h2, h3, h4, htarget, insert_document_xml, hf]
    | false =>
      rcases hcs : copyStage ref target (env.decodeMeta raw) tar filename with ⟨ceffs, cout⟩
      cases cout with
      | error e5 =>
        simp [handler, h1, h2, h3, h4, htarget, insert_document_xml, hf, hcs]
      | ok u =>
        simp [handler, h1, h2, h3, h4, htarget, insert_document_xml, hf, hcs]
  · intro e he
    have h := handler_no_update env m tar
    have h2 := List.all_eq_true.mp h e he
    simpa using h2
  · intro hf
    simp [handler, h1, h2, h3, h4, htarget, insert_document_xml, hf]

/-- Witness for C1: the sample run with a failing store insert ends in
`DocumentInsertionError` with the insert as its only effect. -/
theorem claim_C1_witness :
    handler { sampleEnv with insertFails := true } sampleMessage sampleTar =
      ⟨.error .documentInsertion, [Effect.insertXml "ewhc/2022/1" "<akomaNtoso/>"],
       true, false, true, false⟩ :=
  (claim_C1_insert_only { sampleEnv with insertFails := true } sampleMessage sampleTar
    "TDR-2022-123" "/tmp/TDR-2022-123.tar.gz" "rawmeta" "<akomaNtoso/>" "ewhc/2022/1"
    rfl rfl rfl rfl rfl).2.2 rfl

/-- Counterexample to C6 as stated: a fully successful run never deletes
the temporary archive file, and a run failing at metadata extraction
leaves the archive handle open — resources are not released on every exit
path. -/
theorem claim_C6_counterexample :
    ((handler sampleEnv sampleMessage sampleTar).outcome = .ok () ∧
     (handler sampleEnv sampleMessage sampleTar).tmpCreated = true ∧
     (handler sampleEnv sampleMessage sampleTar).tmpDeleted = false) ∧
    ((handler sampleEnv sampleMessage sampleTarNoMeta).outcome = .error .fileNotFound ∧
     (handler sampleEnv sampleMessage sampleTarNoMeta).tarOpened = true ∧
     (handler sampleEnv sampleMessage sampleTarNoMeta).tarClosed = false) := by
  decide

/-- Claim C6 as amended: on every run the temporary archive file is never
deleted, and the archive handle is closed exactly when the pipeline reaches
its successful final statement — every failure exit after opening leaves the
handle open. -/
theorem claim_C6_resources (env : Env) (m : Message) (tar : List TarMember) :
    (handler env m tar).tmpDeleted = false ∧
    ((handler env m tar).tarClosed = true ↔ (handler env m tar).outcome = .ok ()) := by
  suffices h : ∀ r : RunResult, handler env m tar = r →
      r.tmpDeleted = false ∧ (r.tarClosed = true ↔ r.outcome = .ok ()) from h _ rfl
  intro r hr
  unfold handler at hr
  split at hr
  case h_1 e1 heq1 =>
    rw [← hr]
    simp
  case h_2 ref heq1 =>
    split at hr
    case h_1 effs e2 heq2 =>
      rw [← hr]
      simp
    case h_2 effs filename heq2 =>
      cases h3 : extract_metadata tar with
      | error e3 =>
        rw [h3] at hr
        try dsimp only at hr
        rw [← hr]
        simp
      | ok raw =>
        rw [h3] at hr
        try dsimp only at hr
        cases h4 : get_best_xml env.parseOk tar (env.decodeMeta raw).xmlFileName with
        | error e4 =>
          rw [h4] at hr
          try dsimp only at hr
          rw [← hr]
          simp
        | ok xml =>
          rw [h4] at hr
          simp only [insert_document_xml] at hr
          cases hf : env.insertFails with
          | true =>
            rw [hf] at hr
            rw [if_neg (show ¬((!true) = true) by decide)] at hr
            rw [← hr]
            simp
          | false =>
            rw [hf] at hr
            rw [if_pos (show (!false) = true by decide)] at hr
            rcases hcs : copyStage ref
                (select_uri env.store env.now env.token
                  (extract_uri (env.decodeMeta raw) ref))
                (env.decodeMeta raw) tar filename with ⟨ceffs, cout⟩
            rw [hcs] at hr
            cases cout with
            | error e5 =>
              try dsimp only at hr
              rw [← hr]
              simp
            | ok u =>
              try dsimp only at hr
              rw [← hr]
              simp

/-- Counterexample to C8 as stated: in a non-production environment
(`ROLLBAR_ENV` not `prod`), a run whose insert succeeds completes without
ever sending the "new document" notification. -/
theorem claim_C8_counterexample :
    (handler { sampleEnv with rollbarEnv := "dev" } sampleMessage sampleTar).outcome =
      .ok () ∧
    Effect.insertXml "ewhc/2022/1" "<akomaNtoso/>" ∈
      (handler { sampleEnv with rollbarEnv := "dev" } sampleMessage sampleTar).effects ∧
    Effect.notifyNew "ewhc/2022/1" ∉
      (handler { sampleEnv with rollbarEnv := "dev" } sampleMessage sampleTar).effects := by
  decide

/-- Claim C8 as amended: in the production environment (`ROLLBAR_ENV` set
to `prod`), every ingestion whose document insert succeeds sends the "new
document" notification for the target URI to the editorial recipient. -/
theorem claim_C8_notification (env : Env) (m : Message) (tar : List TarMember)
    (ref filename raw xml target : String)
    (h1 : get_consignment_reference m = .ok ref)
    (h2 : save_s3_response env m = ([], .ok filename))
    (h3 : extract_metadata tar = .ok raw)
    (htarget : select_uri env.store env.now env.token
        (extract_uri (env.decodeMeta raw) ref) = target)
    (h4 : get_best_xml env.parseOk tar (env.decodeMeta raw).xmlFileName = .ok xml)
    (hprod : env.rollbarEnv = "prod")
    (hins : env.insertFails = false) :
    Effect.notifyNew target ∈ (handler env m tar).effects := by
  rcases hcs : copyStage ref target (env.decodeMeta raw) tar filename with ⟨ceffs, cout⟩
  cases cout with
  | error e5 =>
    simp [handler, h1, h2, h3, h4, htarget, insert_document_xml, hins, hcs,
      send_new_judgment_notification, hprod]
  | ok u =>
    simp [handler, h1, h2, h3, h4, htarget, insert_document_xml, hins, hcs,
      send_new_judgment_notification, hprod]

/-- Witness for C8: the sample production run notifies about the resolved
target URI. -/
theorem claim_C8_witness :
    Effect.notifyNew "ewhc/2022/1" ∈
      (handler sampleEnv sampleMessage sampleTar).effects :=
  claim_C8_notification sampleEnv sampleMessage sampleTar
    "TDR-2022-123" "/tmp/TDR-2022-123.tar.gz" "rawmeta" "<akomaNtoso/>" "ewhc/2022/1"
    rfl rfl rfl rfl rfl rfl rfl

end Ingester
